import Mathlib

/-!
Verification of the nutype code-generation core against its specification.

The repository is a Rust procedural-macro crate.  The functions under
`src/nutype_derive/src/float/gen/mod.rs` emit token streams; the shallow
embedding below models the *semantics of the emitted code* (the generated
`sanitize`, `validate`, `new`, `into_inner` functions) and the generator's
own data flow (guard validation, trait resolution, attribute parsing).
Floating-point values are modelled by `ℚ`: every operation the generated
code performs on the inner value (clamping and order comparisons) is exact
and order-theoretic, so a linear order is a faithful carrier.
-/

namespace Nutype

/-- Sanitizers of the float newtype, from `FloatSanitizer` in
`nutype_derive`: `Clamp { min, max }` and `With(custom function)`. -/
inductive FloatSanitizer where
  | Clamp (min max : ℚ)
  | With (f : ℚ → ℚ)

/-- Validators of the float newtype, from `FloatValidator` in
`nutype_derive`: `Max(bound)`, `Min(bound)`, `With(predicate)`. -/
inductive FloatValidator where
  | Max (bound : ℚ)
  | Min (bound : ℚ)
  | With (is_valid : ℚ → Bool)

/-- The validation-error enum emitted for a fallible wrapper; variant names
are the ones produced by `gen_validate_fn` (`TooBig`, `TooSmall`,
`Invalid`). -/
inductive FloatError where
  | TooBig
  | TooSmall
  | Invalid
deriving DecidableEq, Repr

/-- Rust's `f64::clamp(min, max)` as executed by the generated sanitizer:
first raise to `min`, then lower to `max` (the two sequential `if`s of
`core`'s implementation). -/
def rustClamp (v min max : ℚ) : ℚ :=
  let v1 := if v < min then min else v
  if v1 > max then max else v1

/-- One sanitizer step, from the per-variant arms of `gen_sanitize_fn`:
`value = value.clamp(min, max)` for `Clamp`, `value = (custom)(value)` for
`With`. -/
def applySanitizer (s : FloatSanitizer) (value : ℚ) : ℚ :=
  match s with
  | .Clamp min max => rustClamp value min max
  | .With f => f value

/-- The generated `fn sanitize(mut value) -> T` from `gen_sanitize_fn`:
the transformations run in declaration order, each consuming the previous
output. -/
def sanitize (sanitizers : List FloatSanitizer) (value : ℚ) : ℚ :=
  sanitizers.foldl (fun acc s => applySanitizer s acc) value

/-- The generated `fn validate(val) -> Result<(), Error>` from
`gen_validate_fn`: one early-return `if` per validator, in declaration
order, then `Ok(())`. -/
def validate : List FloatValidator → ℚ → Except FloatError Unit
  | [], _ => .ok ()
  | .Max max :: rest, val => if val > max then .error .TooBig else validate rest val
  | .Min min :: rest, val => if val < min then .error .TooSmall else validate rest val
  | .With is_valid :: rest, val =>
      if !(is_valid val) then .error .Invalid else validate rest val

/-- The generated wrapper struct `pub struct TypeName(T)` (the concrete
name is chosen by the macro user; one field holding the inner value). -/
structure FloatWrapper where
  inner : ℚ
deriving DecidableEq, Repr

/-- The generated `pub fn into_inner(self) -> T { self.0 }` from
`gen_impl_methods`. -/
def FloatWrapper.into_inner (w : FloatWrapper) : ℚ := w.inner

/-- The generated infallible `pub fn new(raw_value) -> Self` from
`gen_new_without_validation`: `Self(sanitize(raw_value))`. -/
def new_without_validation (sanitizers : List FloatSanitizer) (raw_value : ℚ) :
    FloatWrapper :=
  ⟨sanitize sanitizers raw_value⟩

/-- The generated fallible `pub fn new(raw_value) -> Result<Self, Error>`
from `gen_new_with_validation`: sanitize, then `validate(sanitized)?`,
then `Ok(Self(sanitized))`. -/
def new_with_validation (sanitizers : List FloatSanitizer)
    (validators : List FloatValidator) (raw_value : ℚ) :
    Except FloatError FloatWrapper :=
  let sanitized_value := sanitize sanitizers raw_value
  match validate validators sanitized_value with
  | .error e => .error e
  | .ok _ => .ok ⟨sanitized_value⟩

/-- Whether one validator rejects a value, read off the `if` conditions of
`gen_validate_fn`: `Max(b)` rejects `val > b`, `Min(b)` rejects
`val < b`, `With(p)` rejects `!p(val)`. -/
def fails (v : FloatValidator) (val : ℚ) : Bool :=
  match v with
  | .Max max => decide (val > max)
  | .Min min => decide (val < min)
  | .With is_valid => !(is_valid val)

/-- The error variant each validator maps to in `gen_validate_fn`:
`Max → TooBig`, `Min → TooSmall`, `With → Invalid`. -/
def errorVariant (v : FloatValidator) : FloatError :=
  match v with
  | .Max _ => .TooBig
  | .Min _ => .TooSmall
  | .With _ => .Invalid

/-! Guard validation (`src/nutype_macros/src/any/validate.rs`).  The `any`
module is generic over the rule types; we instantiate it with the float
rules above (the spec notes the per-category pipelines are structurally
identical). -/

/-- A rule together with its source span, as the parser hands it to guard
validation (`SpannedAnyValidator` / `SpannedAnySanitizer`). -/
structure Spanned (α : Type) where
  item : α
  span : Nat

/-- The kind tags of float validators (`FloatValidatorKind`). -/
inductive FloatValidatorKind where
  | Min
  | Max
  | With
deriving DecidableEq, Repr

/-- The kind tags of float sanitizers (`FloatSanitizerKind`). -/
inductive FloatSanitizerKind where
  | Clamp
  | With
deriving DecidableEq, Repr

/-- The kind of a validator: each variant maps to its tag. -/
def FloatValidator.kind : FloatValidator → FloatValidatorKind
  | .Min _ => .Min
  | .Max _ => .Max
  | .With _ => .With

/-- The kind of a sanitizer: each variant maps to its tag. -/
def FloatSanitizer.kind : FloatSanitizer → FloatSanitizerKind
  | .Clamp _ _ => .Clamp
  | .With _ => .With

/-- Modelled from the spec: the display name of a validator kind, used for
the duplicate-rule diagnostic.  The rendering code is not under `src/`;
the spec's concrete scenario shows a duplicated `Min` diagnostic naming
"Min". -/
def validatorKindName : FloatValidatorKind → String
  | .Min => "Min"
  | .Max => "Max"
  | .With => "With"

/-- Modelled from the spec: the display name of a sanitizer kind. -/
def sanitizerKindName : FloatSanitizerKind → String
  | .Clamp => "Clamp"
  | .With => "With"

/-- Modelled from the spec: the duplicate scan of `validate_duplicates`
(in `common/validate.rs`, not present under `src/`).  Spec 4.1: guard
validation "rejects ... if the same sanitizer kind or same validator kind
appears more than once".  Returns the first kind (in scan order) that
occurs again later in the list, if any. -/
def firstDuplicate {α K : Type} [DecidableEq K] (kind : α → K) : List α → Option K
  | [] => none
  | x :: rest =>
      if rest.any (fun y => kind y == kind x) then some (kind x)
      else firstDuplicate kind rest

/-- Modelled from the spec: `validate_duplicates` (in
`common/validate.rs`, not present under `src/`): fails with the message
built from the offending kind when some kind occurs more than once. -/
def validate_duplicates {α K : Type} [DecidableEq K] (kind : α → K)
    (mkMsg : K → String) (items : List α) : Except String Unit :=
  match firstDuplicate kind items with
  | some k => .error (mkMsg k)
  | none => .ok ()

/-- The duplicate-validator message format of `validate_validators`. -/
def dupValidatorMsg (k : FloatValidatorKind) : String :=
  "Duplicated validators `" ++ validatorKindName k ++
    "`.\nOh, maybe it's a time to take a break?"

/-- The duplicate-sanitizer message format of `validate_sanitizers`. -/
def dupSanitizerMsg (k : FloatSanitizerKind) : String :=
  "Duplicated sanitizer `" ++ sanitizerKindName k ++
    "`.\nYou never know, what kind of error will be next!"

/-- `validate_validators` from `any/validate.rs`: reject duplicated
validator kinds, else strip the spans. -/
def validate_validators (validators : List (Spanned FloatValidator)) :
    Except String (List FloatValidator) :=
  match validate_duplicates (fun v => v.item.kind) dupValidatorMsg validators with
  | .error e => .error e
  | .ok _ => .ok (validators.map fun v => v.item)

/-- `validate_sanitizers` from `any/validate.rs`: reject duplicated
sanitizer kinds, else strip the spans. -/
def validate_sanitizers (sanitizers : List (Spanned FloatSanitizer)) :
    Except String (List FloatSanitizer) :=
  match validate_duplicates (fun s => s.item.kind) dupSanitizerMsg sanitizers with
  | .error e => .error e
  | .ok _ => .ok (sanitizers.map fun s => s.item)

/-- The raw (unvalidated) guard handed over by the parser
(`AnyRawGuard`). -/
structure AnyRawGuard where
  sanitizers : List (Spanned FloatSanitizer)
  validators : List (Spanned FloatValidator)

/-- The classified guard (`AnyGuard`): infallible construction without
validators, fallible construction with them. -/
inductive AnyGuard where
  | WithoutValidation (sanitizers : List FloatSanitizer)
  | WithValidation (sanitizers : List FloatSanitizer)
      (validators : List FloatValidator)

/-- `validate_any_guard` from `any/validate.rs`: validate validators, then
sanitizers, then classify by whether the validator list is empty. -/
def validate_any_guard (raw_guard : AnyRawGuard) : Except String AnyGuard :=
  match validate_validators raw_guard.validators with
  | .error e => .error e
  | .ok validators =>
      match validate_sanitizers raw_guard.sanitizers with
      | .error e => .error e
      | .ok sanitizers =>
          if validators.isEmpty then .ok (.WithoutValidation sanitizers)
          else .ok (.WithValidation sanitizers validators)

/-! Error-type generation (claim C6).  `gen_nutype_for_float` decides the
existence of the error type from the meta (`From` vs `TryFrom`); the
variant list itself is emitted by `gen_validation_error_type` in
`float/gen/error.rs`. -/

/-- `NewtypeFloatMeta` from `float/models.rs`: `From` carries sanitizers
only (infallible), `TryFrom` carries sanitizers and validators
(fallible). -/
inductive NewtypeFloatMeta where
  | From (sanitizers : List FloatSanitizer)
  | TryFrom (sanitizers : List FloatSanitizer) (validators : List FloatValidator)

/-- Modelled from the spec: `gen_error_type_name` (in
`float/gen/error.rs`, not under `src/`).  Spec 4.3: "The error type name
is derived deterministically from the wrapper's name (a fixed suffix
convention)". -/
def gen_error_type_name (type_name : String) : String :=
  type_name ++ "Error"

/-- The error-type decision of `gen_nutype_for_float` (lines 36-39): no
error type for `From`, the deterministically named one for `TryFrom`. -/
def maybe_error_type_name (type_name : String) : NewtypeFloatMeta → Option String
  | .From _ => none
  | .TryFrom _ _ => some (gen_error_type_name type_name)

/-- Modelled from the spec: the variant list of the enum emitted by
`gen_validation_error_type` (in `float/gen/error.rs`, not under `src/`).
Spec 4.3: "a closed enum with one variant per validator, in the same
order as declared"; the variant names are the ones `gen_validate_fn`
(under `src/`) returns for each validator kind. -/
def errorVariants : List FloatValidator → List FloatError
  | [] => []
  | .Max _ :: rest => .TooBig :: errorVariants rest
  | .Min _ :: rest => .TooSmall :: errorVariants rest
  | .With _ :: rest => .Invalid :: errorVariants rest

/-! Trait generation (`src/nutype_macros/src/any/gen/traits/mod.rs`),
claim C7. -/

/-- `AnyIrregularTrait`: the capabilities that need a hand-assembled
implementation block. -/
inductive AnyIrregularTrait where
  | AsRef
  | From
  | Into
  | Display
  | Deref
  | Borrow
  | FromStr
  | TryFrom
  | Default
  | SerdeSerialize
  | SerdeDeserialize
  | ArbitraryArbitrary
deriving DecidableEq, Repr

/-- The implementation block emitted for one irregular trait; each tag
stands for the token stream built by the corresponding
`gen_impl_trait_*` helper, recording the inputs that shape it. -/
inductive Artifact where
  | asRefImpl
  | fromImpl
  | intoImpl
  | displayImpl
  | derefImpl
  | borrowImpl
  | fromStrImpl (maybe_error_type_name : Option String)
  | tryFromImpl (maybe_error_type_name : Option String)
  | defaultImpl (default_value : String) (has_validation : Bool)
  | serdeSerializeImpl
  | serdeDeserializeImpl (maybe_error_type_name : Option String)
  | arbitraryImpl
deriving DecidableEq, Repr

/-- Outcome of trait generation: a produced artifact list, a recoverable
`syn::Error` (the `Result::Err` path), or a process-fatal `panic!`. -/
inductive TraitGenResult where
  | ok (artifacts : List Artifact)
  | panicked (msg : String)
  | err (msg : String)
deriving DecidableEq, Repr

/-- Whether the outcome is the recoverable-error path (`Result::Err`), as
opposed to success or a panic. -/
def TraitGenResult.isRecoverableErr : TraitGenResult → Bool
  | .err _ => true
  | _ => false

/-- The `panic!` message of the `Default`-without-value arm of
`gen_implemented_traits` (lines 176-180). -/
def defaultMissingMsg (type_name : String) : String :=
  "Default trait is derived for type " ++ type_name ++ ", but `default = ` is missing"

/-- `gen_implemented_traits` from `any/gen/traits/mod.rs`: map each
irregular trait to its implementation block and collect.  The
`Default` arm panics when no default value was supplied; a panic aborts
the whole collection.  The arbitrary-crate generator
(`arbitrary::gen_impl_trait_arbitrary`, not under `src/`) is modelled as
succeeding. -/
def gen_implemented_traits (type_name : String)
    (maybe_error_type_name : Option String) (maybe_default_value : Option String) :
    List AnyIrregularTrait → TraitGenResult
  | [] => .ok []
  | t :: rest =>
      let head : TraitGenResult :=
        match t with
        | .AsRef => .ok [.asRefImpl]
        | .From => .ok [.fromImpl]
        | .Into => .ok [.intoImpl]
        | .Display => .ok [.displayImpl]
        | .Deref => .ok [.derefImpl]
        | .Borrow => .ok [.borrowImpl]
        | .FromStr => .ok [.fromStrImpl maybe_error_type_name]
        | .TryFrom => .ok [.tryFromImpl maybe_error_type_name]
        | .Default =>
            match maybe_default_value with
            | some default_value =>
                .ok [.defaultImpl default_value maybe_error_type_name.isSome]
            | none => .panicked (defaultMissingMsg type_name)
        | .SerdeSerialize => .ok [.serdeSerializeImpl]
        | .SerdeDeserialize => .ok [.serdeDeserializeImpl maybe_error_type_name]
        | .ArbitraryArbitrary => .ok [.arbitraryImpl]
      match head with
      | .ok arts =>
          match gen_implemented_traits type_name maybe_error_type_name
              maybe_default_value rest with
          | .ok more => .ok (arts ++ more)
          | r => r
      | r => r

/-! Attribute parsing (`src/nutype_macros/src/common/parse/mod.rs`),
claims C9 and C10.  The raw `syn` token manipulation (parenthesised
groups, commas) is abstracted away: the input is the list of attribute
items in stream order, each carrying its already-parsed payload; the
dispatch on the item's identifier follows the source. -/

/-- The feature flags of the embedding build, per the spec's design note:
an explicit configuration value standing for the crate's `match_feature!`
checks (that macro is not under `src/`). -/
structure Features where
  new_unchecked : Bool
  serde : Bool
  schemars08 : Bool

/-- `DeriveTrait` from `common/models.rs` (the variants matched across
the files under `src/`). -/
inductive DeriveTrait where
  | Debug
  | Display
  | Clone
  | Copy
  | PartialEq
  | Eq
  | PartialOrd
  | Ord
  | FromStr
  | AsRef
  | Deref
  | TryFrom
  | From
  | Into
  | Hash
  | Borrow
  | Default
  | SerdeSerialize
  | SerdeDeserialize
  | SchemarsJsonSchema
  | ArbitraryArbitrary
  | DieselNewType
deriving DecidableEq, Repr

/-- The gating message for `Serialize` without the `serde` feature. -/
def serdeSerializeFeatureMsg : String :=
  "To derive Serialize, the feature `serde` of the crate `nutype` needs to be enabled."

/-- The gating message for `Deserialize` without the `serde` feature. -/
def serdeDeserializeFeatureMsg : String :=
  "To derive Deserialize, the feature `serde` of the crate `nutype` needs to be enabled."

/-- The gating message for `JsonSchema` without the `schemars08`
feature. -/
def schemarsFeatureMsg : String :=
  "To derive JsonSchema, the feature `schemars08` of the crate `nutype` needs to be enabled."

/-- The gating message for `new_unchecked` without its feature. -/
def newUncheckedFeatureMsg : String :=
  "To generate ::new_unchecked() function, the feature `new_unchecked` of crate `nutype` needs to be enabled.\nBut you ought to know: generally, THIS IS A BAD IDEA.\nUse it only when you really need it."

/-- `parse_ident_into_derive_trait` from `common/parse/mod.rs`: map a
derive identifier to its trait, gating `Serialize`/`Deserialize` on the
`serde` feature and `JsonSchema` on `schemars08`. -/
def parse_ident_into_derive_trait (features : Features) (ident : String) :
    Except String DeriveTrait :=
  match ident with
  | "Debug" => .ok .Debug
  | "Display" => .ok .Display
  | "Clone" => .ok .Clone
  | "Copy" => .ok .Copy
  | "PartialEq" => .ok .PartialEq
  | "Eq" => .ok .Eq
  | "PartialOrd" => .ok .PartialOrd
  | "Ord" => .ok .Ord
  | "FromStr" => .ok .FromStr
  | "AsRef" => .ok .AsRef
  | "Deref" => .ok .Deref
  | "TryFrom" => .ok .TryFrom
  | "From" => .ok .From
  | "Into" => .ok .Into
  | "Hash" => .ok .Hash
  | "Borrow" => .ok .Borrow
  | "Default" => .ok .Default
  | "Serialize" =>
      if features.serde then .ok .SerdeSerialize
      else .error serdeSerializeFeatureMsg
  | "Deserialize" =>
      if features.serde then .ok .SerdeDeserialize
      else .error serdeDeserializeFeatureMsg
  | "JsonSchema" =>
      if features.schemars08 then .ok .SchemarsJsonSchema
      else .error schemarsFeatureMsg
  | other => .error ("unsupported trait derive: " ++ other)

/-- One item of the `#[nutype(...)]` attribute stream, in stream order,
with its payload already parsed by the respective sub-parser. -/
inductive AttrItem (S V : Type) where
  | sanitizeGroup (items : List S)
  | validateGroup (items : List V)
  | defaultItem (value : String)
  | newUncheckedItem
  | unknownItem (name : String)

/-- Whether an attribute item is one of the kinds every configuration
accepts (`sanitize`, `validate`, `default`), as opposed to the gated
`new_unchecked` and the unknown-ident error case. -/
def AttrItem.isBenign {S V : Type} : AttrItem S V → Bool
  | .sanitizeGroup _ => true
  | .validateGroup _ => true
  | .defaultItem _ => true
  | .newUncheckedItem => false
  | .unknownItem _ => false

/-- `ParseableAttributes` from `common/parse/mod.rs` (`new_unchecked` is
the two-state `NewUnchecked` enum, embedded as `Bool`). -/
structure ParseableAttributes (S V : Type) where
  sanitizers : List S
  validators : List V
  new_unchecked : Bool
  default : Option String

/-- The `Default::default()` starting state of `ParseableAttributes`
(named `init` here because `default` is taken by the field
projection). -/
def ParseableAttributes.init {S V : Type} : ParseableAttributes S V :=
  { sanitizers := [], validators := [], new_unchecked := false, default := none }

/-- The unknown-attribute message of `ParseableAttributes::parse`. -/
def unknownAttributeMsg (name : String) : String :=
  "Unknown attribute `" ++ name ++ "`"

/-- The unknown-option message of `parse_nutype_attributes`. -/
def unknownOptionMsg (name : String) : String :=
  "Unknown #[nutype] option: `" ++ name ++ "`"

/-- `ParseableAttributes::parse` (lines 423-488): fold over the attribute
items, assigning each `sanitize(...)`/`validate(...)` group's contents
over the previously collected list, recording `default` and
`new_unchecked`, and failing on unknown idents or on `new_unchecked`
without its feature. -/
def ParseableAttributes.parse {S V : Type} (features : Features) :
    List (AttrItem S V) → ParseableAttributes S V →
      Except String (ParseableAttributes S V)
  | [], attrs => .ok attrs
  | .sanitizeGroup items :: rest, attrs =>
      ParseableAttributes.parse features rest { attrs with sanitizers := items }
  | .validateGroup items :: rest, attrs =>
      ParseableAttributes.parse features rest { attrs with validators := items }
  | .defaultItem value :: rest, attrs =>
      ParseableAttributes.parse features rest { attrs with default := some value }
  | .newUncheckedItem :: rest, attrs =>
      if features.new_unchecked then
        ParseableAttributes.parse features rest { attrs with new_unchecked := true }
      else .error newUncheckedFeatureMsg
  | .unknownItem name :: _, _ => .error (unknownAttributeMsg name)

/-- `RawGuard` from `common/models.rs`: the raw sanitizer and validator
lists collected by `parse_nutype_attributes`. -/
structure RawGuard (S V : Type) where
  sanitizers : List S
  validators : List V

/-- `Attributes` from `common/models.rs`: the full result of
`parse_nutype_attributes`. -/
structure Attributes (S V : Type) where
  guard : RawGuard S V
  new_unchecked : Bool
  maybe_default_value : Option String

/-- `parse_nutype_attributes` (lines 89-204): the token-stream loop, with
the same assignment-overwrite handling of repeated `sanitize(...)` /
`validate(...)` groups as `ParseableAttributes::parse`.  The loop state
(`raw_guard`, `new_unchecked`, `maybe_default_value`) is threaded
explicitly. -/
def parse_nutype_attributes {S V : Type} (features : Features) :
    List (AttrItem S V) → RawGuard S V → Bool → Option String →
      Except String (Attributes S V)
  | [], raw_guard, new_unchecked, maybe_default_value =>
      .ok { guard := raw_guard, new_unchecked := new_unchecked,
            maybe_default_value := maybe_default_value }
  | .sanitizeGroup items :: rest, raw_guard, nu, dv =>
      parse_nutype_attributes features rest { raw_guard with sanitizers := items } nu dv
  | .validateGroup items :: rest, raw_guard, nu, dv =>
      parse_nutype_attributes features rest { raw_guard with validators := items } nu dv
  | .defaultItem value :: rest, raw_guard, nu, _ =>
      parse_nutype_attributes features rest raw_guard nu (some value)
  | .newUncheckedItem :: rest, raw_guard, _, dv =>
      if features.new_unchecked then
        parse_nutype_attributes features rest raw_guard true dv
      else .error newUncheckedFeatureMsg
  | .unknownItem name :: _, _, _, _ => .error (unknownOptionMsg name)

/-- The contents of the last `sanitize(...)` group of an attribute-item
list, if any (the value the overwrite semantics leaves behind). -/
def lastSanitizeGroup {S V : Type} : List (AttrItem S V) → Option (List S)
  | [] => none
  | .sanitizeGroup items :: rest =>
      match lastSanitizeGroup rest with
      | some l => some l
      | none => some items
  | _ :: rest => lastSanitizeGroup rest

/-- The contents of the last `validate(...)` group of an attribute-item
list, if any. -/
def lastValidateGroup {S V : Type} : List (AttrItem S V) → Option (List V)
  | [] => none
  | .validateGroup items :: rest =>
      match lastValidateGroup rest with
      | some l => some l
      | none => some items
  | _ :: rest => lastValidateGroup rest

/-! String containment, used to state that a diagnostic names a rule kind
or a feature flag. -/

/-- Whether `needle` is a prefix of `hay` (character lists). -/
def startsWithList : List Char → List Char → Bool
  | [], _ => true
  | _ :: _, [] => false
  | a :: ta, b :: tb => a == b && startsWithList ta tb

/-- Whether `needle` occurs contiguously somewhere in `hay`. -/
def hasSubstring (needle : List Char) : List Char → Bool
  | [] => startsWithList needle []
  | c :: rest => startsWithList needle (c :: rest) || hasSubstring needle rest

/-- Whether the message `msg` names `word` (contains it verbatim). -/
def namesWord (msg word : String) : Bool :=
  hasSubstring word.data msg.data

/-- Whether a sanitizer is the `Clamp` variant. -/
def FloatSanitizer.isClamp : FloatSanitizer → Bool
  | .Clamp _ _ => true
  | .With _ => false

/-! Helper lemmas. -/

/-- One step of the generated `validate` function, expressed through
`fails` and `errorVariant`. -/
lemma validate_cons (v : FloatValidator) (rest : List FloatValidator) (x : ℚ) :
    validate (v :: rest) x =
      if fails v x = true then .error (errorVariant v) else validate rest x := by
  cases v <;> simp [validate, fails, errorVariant]

/-- If every validator passes, the generated `validate` returns `Ok(())`. -/
lemma validate_ok_of_all_pass (vals : List FloatValidator) (x : ℚ)
    (h : ∀ v ∈ vals, fails v x = false) : validate vals x = .ok () := by
  induction vals with
  | nil => rfl
  | cons v rest ih =>
      rw [validate_cons, h v (List.mem_cons_self v rest)]
      exact ih fun w hw => h w (List.mem_cons_of_mem v hw)

/-- If validator `i` fails and every earlier one passes, the generated
`validate` returns the error variant of validator `i`. -/
lemma validate_error_at_first_failure (vals : List FloatValidator) (x : ℚ) :
    ∀ (i : Nat) (hi : i < vals.length), fails vals[i] x = true →
      (∀ j (hj : j < i), fails vals[j] x = false) →
      validate vals x = .error (errorVariant vals[i]) := by
  induction vals with
  | nil => intro i hi; exact absurd hi (by simp)
  | cons v rest ih =>
      intro i hi hf hprev
      cases i with
      | zero =>
          rw [validate_cons]
          simp only [List.getElem_cons_zero] at hf ⊢
          simp [hf]
      | succ n =>
          have h0 : fails v x = false := by
            have := hprev 0 (Nat.succ_pos n)
            simpa using this
          rw [validate_cons, h0]
          simp only [List.getElem_cons_succ] at hf ⊢
          simp only [Bool.false_eq_true, if_false]
          exact ih n (by simpa using hi) hf fun j hj => by
            have := hprev (j + 1) (Nat.succ_lt_succ hj)
            simpa using this

/-- Rust's sequential clamp equals the lattice form `min max' (max min' v)`. -/
lemma rustClamp_eq_min_max (v mn mx : ℚ) :
    rustClamp v mn mx = min mx (max mn v) := by
  unfold rustClamp
  simp only [gt_iff_lt, min_def, max_def]
  split_ifs <;> first | rfl | linarith

/-- A chain of clamps is the identity or a single lattice clamp
`min a (max b v)`. -/
lemma sanitize_clamp_rep (sanitizers : List FloatSanitizer)
    (h : ∀ s ∈ sanitizers, s.isClamp = true) :
    (∀ v, sanitize sanitizers v = v) ∨
      ∃ a b : ℚ, ∀ v, sanitize sanitizers v = min a (max b v) := by
  induction sanitizers with
  | nil => exact Or.inl fun v => rfl
  | cons s rest ih =>
      have hrest : ∀ t ∈ rest, t.isClamp = true :=
        fun t ht => h t (List.mem_cons_of_mem s ht)
      cases s with
      | With f =>
          have hs := h _ (List.mem_cons_self _ rest)
          simp [FloatSanitizer.isClamp] at hs
      | Clamp mn mx =>
          right
          have step : ∀ v, sanitize (FloatSanitizer.Clamp mn mx :: rest) v =
              sanitize rest (min mx (max mn v)) := by
            intro v
            show sanitize rest (applySanitizer (.Clamp mn mx) v) = _
            rw [applySanitizer, rustClamp_eq_min_max]
          rcases ih hrest with hid | ⟨a, b, hab⟩
          · exact ⟨mx, mn, fun v => by rw [step v, hid]⟩
          · refine ⟨min a (max b mx), max b mn, fun v => ?_⟩
            rw [step v, hab, max_min_distrib_left, ← max_assoc, ← min_assoc]

/-- The lattice clamp `min a (max b v)` is idempotent. -/
lemma min_max_clamp_idem (a b v : ℚ) :
    min a (max b (min a (max b v))) = min a (max b v) := by
  rw [max_min_distrib_left, ← max_assoc, max_self, ← min_assoc,
    min_eq_left (le_max_right b a)]

/-! Claims C1, C2, C5, C8: the generated construction pipeline. -/

/-- C1: for a fallible wrapper, `new` applies all sanitizers first and
then the validators in declaration order over the sanitized value: if
every validator passes, the wrapper holds exactly the sanitized value;
if validator `i` is the first to fail, `new` returns precisely that
validator's error variant and no wrapper. -/
theorem c1_fallible_new_sanitizes_then_short_circuits
    (sanitizers : List FloatSanitizer) (validators : List FloatValidator)
    (raw_value : ℚ) :
    ((∀ v ∈ validators, fails v (sanitize sanitizers raw_value) = false) →
      new_with_validation sanitizers validators raw_value =
        .ok ⟨sanitize sanitizers raw_value⟩) ∧
    ∀ (i : Nat) (hi : i < validators.length),
      fails validators[i] (sanitize sanitizers raw_value) = true →
      (∀ j (hj : j < i), fails validators[j] (sanitize sanitizers raw_value) = false) →
      new_with_validation sanitizers validators raw_value =
        .error (errorVariant validators[i]) := by
  constructor
  · intro hall
    have hv := validate_ok_of_all_pass validators (sanitize sanitizers raw_value) hall
    simp [new_with_validation, hv]
  · intro i hi hf hprev
    have hv := validate_error_at_first_failure validators
      (sanitize sanitizers raw_value) i hi hf hprev
    simp [new_with_validation, hv]

/-- Witness for C1: with no sanitizer and the single validator
`Max(5)`, input `10` fails with `TooBig` and input `3` succeeds
wrapping `3`. -/
theorem c1_witness :
    new_with_validation [] [FloatValidator.Max 5] 10 = .error .TooBig ∧
    new_with_validation [] [FloatValidator.Max 5] 3 = .ok ⟨3⟩ := by
  constructor
  · exact (c1_fallible_new_sanitizes_then_short_circuits [] [FloatValidator.Max 5] 10).2
      0 (by decide) (by decide) (fun j hj => absurd hj (Nat.not_lt_zero j))
  · exact (c1_fallible_new_sanitizes_then_short_circuits [] [FloatValidator.Max 5] 3).1
      (by decide)

/-- C2 as stated is false on the code: with sanitizers
`[Clamp(-1000, 1000)]` the input `150` is inside the clamp interval, so
sanitization leaves it at `150` (not `100`), and the `Max(100)` validator
then rejects it with `TooBig` — construction does not succeed. -/
theorem c2_counterexample :
    sanitize [FloatSanitizer.Clamp (-1000) 1000] 150 = 150 ∧
    new_with_validation [FloatSanitizer.Clamp (-1000) 1000]
        [FloatValidator.Min 0, FloatValidator.Max 100] 150 = .error .TooBig := by
  exact ⟨rfl, rfl⟩

/-- C2 amended: with the clamp upper bound at `100` the described trace
holds: input `150` is clamped to `100` and construction succeeds with
`100`; input `200` is likewise clamped to `100` and passes the `Max`
check at the boundary; and in general `Max(b)` rejects exactly the
values strictly greater than `b` while `Min(b)` rejects exactly those
strictly smaller. -/
theorem c2_amended_boundary_semantics :
    new_with_validation [FloatSanitizer.Clamp (-1000) 100]
        [FloatValidator.Min 0, FloatValidator.Max 100] 150 = .ok ⟨100⟩ ∧
    sanitize [FloatSanitizer.Clamp (-1000) 100] 150 = 100 ∧
    new_with_validation [FloatSanitizer.Clamp (-1000) 100]
        [FloatValidator.Min 0, FloatValidator.Max 100] 200 = .ok ⟨100⟩ ∧
    (∀ bound v : ℚ, fails (FloatValidator.Max bound) v = true ↔ bound < v) ∧
    (∀ bound v : ℚ, fails (FloatValidator.Min bound) v = true ↔ v < bound) := by
  refine ⟨rfl, rfl, rfl, ?_, ?_⟩ <;> intro bound v <;> simp [fails]

/-- Witness for C2 (amended): the boundary value `100` is not rejected
by `Max(100)`, while `101` is. -/
theorem c2_witness :
    fails (FloatValidator.Max 100) 101 = true ∧
    fails (FloatValidator.Max 100) 100 ≠ true := by
  constructor
  · exact (c2_amended_boundary_semantics.2.2.2.1 100 101).mpr (by norm_num)
  · intro h
    exact absurd ((c2_amended_boundary_semantics.2.2.2.1 100 100).mp h) (lt_irrefl 100)

/-- C5: for an infallible wrapper, `new` is total (it returns the
wrapper directly) and extraction round-trips: `into_inner(new(x))` is
exactly the sanitizer chain applied to `x` in declaration order (the
conjuncts spell out the fold: the empty chain is the identity and each
step feeds the previous output into the next sanitizer). -/
theorem c5_infallible_roundtrip (sanitizers : List FloatSanitizer) (raw_value : ℚ) :
    (new_without_validation sanitizers raw_value).into_inner =
      sanitize sanitizers raw_value ∧
    sanitize [] raw_value = raw_value ∧
    ∀ s rest, sanitize (s :: rest) raw_value =
      sanitize rest (applySanitizer s raw_value) :=
  ⟨rfl, rfl, fun _ _ => rfl⟩

/-- C8 as stated is false on the code: a custom (`With`) sanitizer need
not be idempotent, so applying the full chain twice can differ from
applying it once.  Witness: the custom function mapping `0` to `1` and
everything else to `2`. -/
theorem c8_counterexample :
    sanitize [FloatSanitizer.With (fun v => if v = 0 then 1 else 2)]
        (sanitize [FloatSanitizer.With (fun v => if v = 0 then 1 else 2)] 0) ≠
      sanitize [FloatSanitizer.With (fun v => if v = 0 then 1 else 2)] 0 := by
  decide

/-- C8 amended: the sanitizer chain is idempotent for every sanitizer
list consisting only of `Clamp` sanitizers (in particular, clamping an
already clamped value is a no-op); custom `With` sanitizers carry no
such guarantee. -/
theorem c8_amended_clamp_chain_idempotent (sanitizers : List FloatSanitizer)
    (h : ∀ s ∈ sanitizers, s.isClamp = true) (v : ℚ) :
    sanitize sanitizers (sanitize sanitizers v) = sanitize sanitizers v := by
  rcases sanitize_clamp_rep sanitizers h with hid | ⟨a, b, hab⟩
  · rw [hid, hid]
  · rw [hab, hab, min_max_clamp_idem]

/-- Witness for C8 (amended): one concrete clamp chain, applied twice to
`150`, equals its single application. -/
theorem c8_witness :
    sanitize [FloatSanitizer.Clamp 0 100]
        (sanitize [FloatSanitizer.Clamp 0 100] 150) =
      sanitize [FloatSanitizer.Clamp 0 100] 150 :=
  c8_amended_clamp_chain_idempotent [FloatSanitizer.Clamp 0 100] (by decide) 150

/-- The duplicate scan finds nothing exactly when the kind list has no
duplicates. -/
lemma firstDuplicate_eq_none_iff {α K : Type} [DecidableEq K] (kind : α → K)
    (l : List α) : firstDuplicate kind l = none ↔ (l.map kind).Nodup := by
  induction l with
  | nil => simp [firstDuplicate]
  | cons x rest ih =>
      rw [List.map_cons, List.nodup_cons]
      by_cases hmem : rest.any (fun y => kind y == kind x) = true
      · have hx : kind x ∈ rest.map kind := by
          rcases List.any_eq_true.mp hmem with ⟨y, hy, hbeq⟩
          exact List.mem_map.mpr ⟨y, hy, beq_iff_eq.mp hbeq⟩
        simp [firstDuplicate, hmem, hx]
      · have hx : kind x ∉ rest.map kind := by
          intro hc
          rcases List.mem_map.mp hc with ⟨y, hy, hk⟩
          exact hmem (List.any_eq_true.mpr ⟨y, hy, beq_iff_eq.mpr hk⟩)
        simp [firstDuplicate, hmem, hx, ih]

/-- A kind reported by the duplicate scan occurs at least twice. -/
lemma firstDuplicate_some_count {α K : Type} [DecidableEq K] (kind : α → K)
    (l : List α) (k : K) (h : firstDuplicate kind l = some k) :
    2 ≤ (l.map kind).count k := by
  induction l with
  | nil => simp [firstDuplicate] at h
  | cons x rest ih =>
      by_cases hmem : rest.any (fun y => kind y == kind x) = true
      · have hk : kind x = k := by
          simpa [firstDuplicate, hmem] using h
        subst hk
        rcases List.any_eq_true.mp hmem with ⟨y, hy, hbeq⟩
        have hx : kind x ∈ rest.map kind :=
          List.mem_map.mpr ⟨y, hy, beq_iff_eq.mp hbeq⟩
        have hpos : 0 < (rest.map kind).count (kind x) :=
          List.count_pos_iff.mpr hx
        rw [List.map_cons, List.count_cons_self]
        omega
      · have h' : firstDuplicate kind rest = some k := by
          simpa [firstDuplicate, hmem] using h
        have := ih h'
        rw [List.map_cons, List.count_cons]
        omega

/-! Claims C3 and C4: guard validation. -/

/-- C3: a raw guard whose sanitizer kinds and validator kinds are each
duplicate-free validates successfully, producing `WithoutValidation`
with the (span-stripped) sanitizers exactly when the validator list is
empty and `WithValidation` with both lists otherwise. -/
theorem c3_guard_classification (raw_guard : AnyRawGuard)
    (hs : (raw_guard.sanitizers.map fun s => s.item.kind).Nodup)
    (hv : (raw_guard.validators.map fun v => v.item.kind).Nodup) :
    (raw_guard.validators = [] →
      validate_any_guard raw_guard =
        .ok (.WithoutValidation (raw_guard.sanitizers.map fun s => s.item))) ∧
    (raw_guard.validators ≠ [] →
      validate_any_guard raw_guard =
        .ok (.WithValidation (raw_guard.sanitizers.map fun s => s.item)
          (raw_guard.validators.map fun v => v.item))) := by
  have hv' : firstDuplicate (fun v => v.item.kind) raw_guard.validators = none :=
    (firstDuplicate_eq_none_iff _ _).mpr hv
  have hs' : firstDuplicate (fun s => s.item.kind) raw_guard.sanitizers = none :=
    (firstDuplicate_eq_none_iff _ _).mpr hs
  constructor
  · intro hempty
    simp [validate_any_guard, validate_validators, validate_sanitizers,
      validate_duplicates, firstDuplicate, hv', hs', hempty]
  · intro hnonempty
    have : (raw_guard.validators.map fun v => v.item).isEmpty = false := by
      cases h : raw_guard.validators with
      | nil => exact absurd h hnonempty
      | cons a l => simp [h]
    simp [validate_any_guard, validate_validators, validate_sanitizers,
      validate_duplicates, hv', hs', this]

/-- Witness for C3: a guard with one `Min` validator and no sanitizer
classifies as `WithValidation`. -/
theorem c3_witness :
    validate_any_guard ⟨[], [⟨FloatValidator.Min 0, 0⟩]⟩ =
      .ok (.WithValidation [] [FloatValidator.Min 0]) :=
  (c3_guard_classification ⟨[], [⟨FloatValidator.Min 0, 0⟩]⟩ (by simp) (by simp)).2
    (List.cons_ne_nil _ _)

/-- C4: a raw guard in which some validator kind (or, with
duplicate-free validators, some sanitizer kind) occurs more than once is
rejected: no guard is produced, the duplicate scan reports an offending
kind, that kind indeed occurs at least twice, and the resulting
diagnostic is the duplicate-rule message naming that kind. -/
theorem c4_duplicate_rule_rejection (raw_guard : AnyRawGuard) :
    (¬ (raw_guard.validators.map fun v => v.item.kind).Nodup →
      (∀ g, validate_any_guard raw_guard ≠ .ok g) ∧
      (firstDuplicate (fun v => v.item.kind) raw_guard.validators).isSome = true ∧
      ∀ k, firstDuplicate (fun v => v.item.kind) raw_guard.validators = some k →
        2 ≤ (raw_guard.validators.map fun v => v.item.kind).count k ∧
        validate_any_guard raw_guard = .error (dupValidatorMsg k) ∧
        namesWord (dupValidatorMsg k) (validatorKindName k) = true) ∧
    ((raw_guard.validators.map fun v => v.item.kind).Nodup →
      ¬ (raw_guard.sanitizers.map fun s => s.item.kind).Nodup →
      (∀ g, validate_any_guard raw_guard ≠ .ok g) ∧
      (firstDuplicate (fun s => s.item.kind) raw_guard.sanitizers).isSome = true ∧
      ∀ k, firstDuplicate (fun s => s.item.kind) raw_guard.sanitizers = some k →
        2 ≤ (raw_guard.sanitizers.map fun s => s.item.kind).count k ∧
        validate_any_guard raw_guard = .error (dupSanitizerMsg k) ∧
        namesWord (dupSanitizerMsg k) (sanitizerKindName k) = true) := by
  constructor
  · intro hdup
    have hsome : (firstDuplicate (fun v => v.item.kind) raw_guard.validators).isSome =
        true := by
      cases h : firstDuplicate (fun v => v.item.kind) raw_guard.validators with
      | none => exact absurd ((firstDuplicate_eq_none_iff _ _).mp h) hdup
      | some k => rfl
    have herr : ∀ k,
        firstDuplicate (fun v => v.item.kind) raw_guard.validators = some k →
        validate_any_guard raw_guard = .error (dupValidatorMsg k) := by
      intro k hk
      simp [validate_any_guard, validate_validators, validate_duplicates, hk]
    refine ⟨?_, hsome, ?_⟩
    · intro g hok
      cases h : firstDuplicate (fun v => v.item.kind) raw_guard.validators with
      | none => exact absurd ((firstDuplicate_eq_none_iff _ _).mp h) hdup
      | some k => rw [herr k h] at hok; exact Except.noConfusion hok
    · intro k hk
      refine ⟨firstDuplicate_some_count _ _ _ hk, herr k hk, ?_⟩
      cases k <;> decide
  · intro hvnodup hdup
    have hv' : firstDuplicate (fun v => v.item.kind) raw_guard.validators = none :=
      (firstDuplicate_eq_none_iff _ _).mpr hvnodup
    have hsome : (firstDuplicate (fun s => s.item.kind) raw_guard.sanitizers).isSome =
        true := by
      cases h : firstDuplicate (fun s => s.item.kind) raw_guard.sanitizers with
      | none => exact absurd ((firstDuplicate_eq_none_iff _ _).mp h) hdup
      | some k => rfl
    have herr : ∀ k,
        firstDuplicate (fun s => s.item.kind) raw_guard.sanitizers = some k →
        validate_any_guard raw_guard = .error (dupSanitizerMsg k) := by
      intro k hk
      simp [validate_any_guard, validate_validators, validate_sanitizers,
        validate_duplicates, hv', hk]
    refine ⟨?_, hsome, ?_⟩
    · intro g hok
      cases h : firstDuplicate (fun s => s.item.kind) raw_guard.sanitizers with
      | none => exact absurd ((firstDuplicate_eq_none_iff _ _).mp h) hdup
      | some k => rw [herr k h] at hok; exact Except.noConfusion hok
    · intro k hk
      refine ⟨firstDuplicate_some_count _ _ _ hk, herr k hk, ?_⟩
      cases k <;> decide

/-- Witness for C4: the spec's concrete scenario — duplicated validators
`Min(0)` and `Min(1)` — is rejected with the duplicate-rule message
naming `Min`, and the `Min` kind occurs twice. -/
theorem c4_witness :
    2 ≤ (([⟨FloatValidator.Min 0, 0⟩, ⟨FloatValidator.Min 1, 1⟩] :
        List (Spanned FloatValidator)).map fun v => v.item.kind).count .Min ∧
    validate_any_guard ⟨[], [⟨FloatValidator.Min 0, 0⟩, ⟨FloatValidator.Min 1, 1⟩]⟩ =
      .error (dupValidatorMsg .Min) ∧
    namesWord (dupValidatorMsg .Min) "Min" = true :=
  ((c4_duplicate_rule_rejection
      ⟨[], [⟨FloatValidator.Min 0, 0⟩, ⟨FloatValidator.Min 1, 1⟩]⟩).1
    (by decide)).2.2 .Min rfl

/-- The emitted error-enum variant list is the validator list mapped
through the kind-to-variant naming. -/
lemma errorVariants_eq_map (validators : List FloatValidator) :
    errorVariants validators = validators.map errorVariant := by
  induction validators with
  | nil => rfl
  | cons v rest ih => cases v <;> simp [errorVariants, errorVariant, ih]

/-! Claim C6: existence and shape of the error type. -/

/-- C6: an error type exists exactly for the fallible (`TryFrom`) meta,
and its variant list has one variant per validator, in validator order,
named by the validator kind: `Max → TooBig`, `Min → TooSmall`,
`With → Invalid`. -/
theorem c6_error_type_exists_iff_validation (type_name : String)
    (meta : NewtypeFloatMeta) (validators : List FloatValidator) :
    ((maybe_error_type_name type_name meta).isSome = true ↔
      ∃ s v, meta = NewtypeFloatMeta.TryFrom s v) ∧
    errorVariants validators = validators.map errorVariant ∧
    (errorVariants validators).length = validators.length ∧
    (∀ bound, errorVariant (FloatValidator.Max bound) = .TooBig) ∧
    (∀ bound, errorVariant (FloatValidator.Min bound) = .TooSmall) ∧
    (∀ p, errorVariant (FloatValidator.With p) = .Invalid) := by
  refine ⟨?_, errorVariants_eq_map validators, ?_, fun _ => rfl, fun _ => rfl,
    fun _ => rfl⟩
  · cases meta with
    | From s => simp [maybe_error_type_name]
    | TryFrom s v =>
        simp only [maybe_error_type_name, Option.isSome_some, true_iff]
        exact ⟨s, v, rfl⟩
  · rw [errorVariants_eq_map]
    exact List.length_map _ _

/-- Witness for C6: the fallible meta carries an error type name. -/
theorem c6_witness :
    (maybe_error_type_name "Amount"
      (NewtypeFloatMeta.TryFrom [] [FloatValidator.Min 0])).isSome = true :=
  ((c6_error_type_exists_iff_validation "Amount"
      (.TryFrom [] [FloatValidator.Min 0]) []).1).mpr ⟨[], [FloatValidator.Min 0], rfl⟩

/-- A substring of the right part of an append is a substring of the
whole. -/
lemma hasSubstring_append_left (needle h1 h2 : List Char)
    (h : hasSubstring needle h2 = true) : hasSubstring needle (h1 ++ h2) = true := by
  induction h1 with
  | nil => simpa using h
  | cons c t ih => simp [hasSubstring, ih]

/-- The missing-default panic message always names `default`. -/
lemma namesWord_defaultMissingMsg (type_name : String) :
    namesWord (defaultMissingMsg type_name) "default" = true := by
  unfold namesWord defaultMissingMsg
  rw [String.data_append]
  exact hasSubstring_append_left _ _ _ (by decide)

/-- With no supplied default value, `gen_implemented_traits` panics with
the missing-default message as soon as the trait list contains
`Default`. -/
lemma gen_implemented_traits_panics_on_default (type_name : String)
    (maybe_error_type_name : Option String) :
    ∀ (impl_traits : List AnyIrregularTrait),
      AnyIrregularTrait.Default ∈ impl_traits →
      gen_implemented_traits type_name maybe_error_type_name none impl_traits =
        .panicked (defaultMissingMsg type_name) := by
  intro impl_traits
  induction impl_traits with
  | nil => intro h; cases h
  | cons t rest ih =>
      intro hmem
      rcases List.mem_cons.mp hmem with heq | hmem'
      · rw [← heq]
        simp [gen_implemented_traits]
      · have hres := ih hmem'
        cases t <;> simp [gen_implemented_traits, hres]

/-! Claim C7: requesting `Default` without a default expression. -/

/-- C7 as stated is false on the code: requesting `Default` without a
default value does not produce a recoverable caller-facing diagnostic —
`gen_implemented_traits` panics (the `panic!` arm of the `Default`
case), which is the process-fatal path, not the `Result::Err` path. -/
theorem c7_counterexample :
    gen_implemented_traits "Foo" none none [AnyIrregularTrait.Default] =
      .panicked (defaultMissingMsg "Foo") ∧
    (gen_implemented_traits "Foo" none none
        [AnyIrregularTrait.Default]).isRecoverableErr = false :=
  ⟨rfl, rfl⟩

/-- C7 amended: for every wrapper that requests the `Default` capability
without supplying a default expression, generation aborts with a
process-fatal panic (not a recoverable diagnostic) whose message names
`default` as the missing option, and no artifact is produced. -/
theorem c7_amended_panic_names_default (type_name : String)
    (maybe_error_type_name : Option String) (impl_traits : List AnyIrregularTrait)
    (hmem : AnyIrregularTrait.Default ∈ impl_traits) :
    gen_implemented_traits type_name maybe_error_type_name none impl_traits =
      .panicked (defaultMissingMsg type_name) ∧
    namesWord (defaultMissingMsg type_name) "default" = true :=
  ⟨gen_implemented_traits_panics_on_default type_name maybe_error_type_name
      impl_traits hmem,
    namesWord_defaultMissingMsg type_name⟩

/-- Witness for C7 (amended): a trait list with `Display` before
`Default` still ends in the panic, message naming `default`. -/
theorem c7_witness :
    gen_implemented_traits "Foo" (some "FooError") none
        [AnyIrregularTrait.Display, AnyIrregularTrait.Default] =
      .panicked (defaultMissingMsg "Foo") ∧
    namesWord (defaultMissingMsg "Foo") "default" = true :=
  c7_amended_panic_names_default "Foo" (some "FooError")
    [AnyIrregularTrait.Display, AnyIrregularTrait.Default] (by decide)

/-! Claim C9: feature-gated capabilities. -/

/-- C9: with the `serde` flag off, deriving `Serialize`/`Deserialize`
fails with the message naming `serde`; with `schemars08` off,
`JsonSchema` fails with the message naming `schemars08`; with
`new_unchecked` off, an attribute stream reaching a `new_unchecked` item
fails with the message naming `new_unchecked` — never a silent skip. -/
theorem c9_feature_gates_error (features : Features) :
    (features.serde = false →
      parse_ident_into_derive_trait features "Serialize" =
        .error serdeSerializeFeatureMsg ∧
      parse_ident_into_derive_trait features "Deserialize" =
        .error serdeDeserializeFeatureMsg ∧
      namesWord serdeSerializeFeatureMsg "serde" = true ∧
      namesWord serdeDeserializeFeatureMsg "serde" = true) ∧
    (features.schemars08 = false →
      parse_ident_into_derive_trait features "JsonSchema" =
        .error schemarsFeatureMsg ∧
      namesWord schemarsFeatureMsg "schemars08" = true) ∧
    (features.new_unchecked = false →
      namesWord newUncheckedFeatureMsg "new_unchecked" = true ∧
      ∀ {S V : Type} (pre post : List (AttrItem S V))
        (attrs : ParseableAttributes S V),
        (∀ x ∈ pre, x.isBenign = true) →
        ParseableAttributes.parse features (pre ++ .newUncheckedItem :: post) attrs =
          .error newUncheckedFeatureMsg) := by
  refine ⟨fun h => ⟨?_, ?_, by decide, by decide⟩, fun h => ⟨?_, by decide⟩,
    fun h => ⟨by decide, ?_⟩⟩
  · simp [parse_ident_into_derive_trait, h]
  · simp [parse_ident_into_derive_trait, h]
  · simp [parse_ident_into_derive_trait, h]
  · intro S V pre post attrs hben
    induction pre generalizing attrs with
    | nil => simp [ParseableAttributes.parse, h]
    | cons x rest ih =>
        have hx := hben x (List.mem_cons_self x rest)
        have hrest : ∀ y ∈ rest, y.isBenign = true :=
          fun y hy => hben y (List.mem_cons_of_mem x hy)
        cases x with
        | sanitizeGroup items =>
            simp only [List.cons_append, ParseableAttributes.parse]
            exact ih _ hrest
        | validateGroup items =>
            simp only [List.cons_append, ParseableAttributes.parse]
            exact ih _ hrest
        | defaultItem value =>
            simp only [List.cons_append, ParseableAttributes.parse]
            exact ih _ hrest
        | newUncheckedItem => simp [AttrItem.isBenign] at hx
        | unknownItem name => simp [AttrItem.isBenign] at hx

/-- Witness for C9: with every feature off, `Serialize` is rejected with
the `serde`-naming message and a lone `new_unchecked` item is rejected
with the `new_unchecked`-naming message. -/
theorem c9_witness :
    parse_ident_into_derive_trait ⟨false, false, false⟩ "Serialize" =
      .error serdeSerializeFeatureMsg ∧
    ParseableAttributes.parse (S := Nat) (V := Nat) ⟨false, false, false⟩
        [AttrItem.newUncheckedItem] .init = .error newUncheckedFeatureMsg := by
  constructor
  · exact ((c9_feature_gates_error ⟨false, false, false⟩).1 rfl).1
  · exact ((c9_feature_gates_error ⟨false, false, false⟩).2.2 rfl).2 [] []
      .init (fun x hx => absurd hx (List.not_mem_nil x))

/-! Claim C10: repeated `sanitize(...)` / `validate(...)` groups. -/

/-- C10: both attribute parsers silently overwrite previously collected
lists on each repeated `sanitize(...)`/`validate(...)` group: on success
the resulting sanitizer (validator) list is the contents of the last
such group (or the starting value when there is none), and two
consecutive groups of the same section parse without any
duplicate-section error. -/
theorem c10_last_group_wins {S V : Type} (features : Features) :
    (∀ (items : List (AttrItem S V)) (attrs res : ParseableAttributes S V),
      ParseableAttributes.parse features items attrs = .ok res →
      res.sanitizers = (lastSanitizeGroup items).getD attrs.sanitizers ∧
      res.validators = (lastValidateGroup items).getD attrs.validators) ∧
    (∀ (items : List (AttrItem S V)) (rg : RawGuard S V) (nu : Bool)
        (dv : Option String) (res : Attributes S V),
      parse_nutype_attributes features items rg nu dv = .ok res →
      res.guard.sanitizers = (lastSanitizeGroup items).getD rg.sanitizers ∧
      res.guard.validators = (lastValidateGroup items).getD rg.validators) ∧
    (∀ gs1 gs2 : List S,
      ParseableAttributes.parse features
          [AttrItem.sanitizeGroup gs1, AttrItem.sanitizeGroup gs2]
          (.init : ParseableAttributes S V) =
        .ok { ParseableAttributes.init (S := S) (V := V) with sanitizers := gs2 }) ∧
    (∀ vs1 vs2 : List V,
      ParseableAttributes.parse features
          [AttrItem.validateGroup vs1, AttrItem.validateGroup vs2]
          (.init : ParseableAttributes S V) =
        .ok { ParseableAttributes.init (S := S) (V := V) with validators := vs2 }) := by
  refine ⟨?_, ?_, fun gs1 gs2 => rfl, fun vs1 vs2 => rfl⟩
  · intro items
    induction items with
    | nil =>
        intro attrs res h
        have heq : attrs = res := by
          simpa [ParseableAttributes.parse] using h
        subst heq
        simp [lastSanitizeGroup, lastValidateGroup]
    | cons x rest ih =>
        intro attrs res h
        cases x with
        | sanitizeGroup items' =>
            rcases ih _ res (by simpa [ParseableAttributes.parse] using h) with ⟨h1, h2⟩
            constructor
            · rw [h1]
              cases hl : lastSanitizeGroup rest <;> simp [lastSanitizeGroup, hl]
            · rw [h2]
              simp [lastValidateGroup]
        | validateGroup items' =>
            rcases ih _ res (by simpa [ParseableAttributes.parse] using h) with ⟨h1, h2⟩
            constructor
            · rw [h1]
              simp [lastSanitizeGroup]
            · rw [h2]
              cases hl : lastValidateGroup rest <;> simp [lastValidateGroup, hl]
        | defaultItem value =>
            rcases ih _ res (by simpa [ParseableAttributes.parse] using h) with ⟨h1, h2⟩
            exact ⟨by rw [h1]; simp [lastSanitizeGroup],
              by rw [h2]; simp [lastValidateGroup]⟩
        | newUncheckedItem =>
            cases hf : features.new_unchecked with
            | true =>
                rcases ih _ res (by simpa [ParseableAttributes.parse, hf] using h)
                  with ⟨h1, h2⟩
                exact ⟨by rw [h1]; simp [lastSanitizeGroup],
                  by rw [h2]; simp [lastValidateGroup]⟩
            | false => simp [ParseableAttributes.parse, hf] at h
        | unknownItem name => simp [ParseableAttributes.parse] at h
  · intro items
    induction items with
    | nil =>
        intro rg nu dv res h
        have heq : res.guard = rg := by
          have : Attributes.mk rg nu dv = res := by
            simpa [parse_nutype_attributes] using h
          rw [← this]
        rw [heq]
        simp [lastSanitizeGroup, lastValidateGroup]
    | cons x rest ih =>
        intro rg nu dv res h
        cases x with
        | sanitizeGroup items' =>
            rcases ih _ nu dv res (by simpa [parse_nutype_attributes] using h)
              with ⟨h1, h2⟩
            constructor
            · rw [h1]
              cases hl : lastSanitizeGroup rest <;> simp [lastSanitizeGroup, hl]
            · rw [h2]
              simp [lastValidateGroup]
        | validateGroup items' =>
            rcases ih _ nu dv res (by simpa [parse_nutype_attributes] using h)
              with ⟨h1, h2⟩
            constructor
            · rw [h1]
              simp [lastSanitizeGroup]
            · rw [h2]
              cases hl : lastValidateGroup rest <;> simp [lastValidateGroup, hl]
        | defaultItem value =>
            rcases ih rg nu (some value) res
                (by simpa [parse_nutype_attributes] using h) with ⟨h1, h2⟩
            exact ⟨by rw [h1]; simp [lastSanitizeGroup],
              by rw [h2]; simp [lastValidateGroup]⟩
        | newUncheckedItem =>
            cases hf : features.new_unchecked with
            | true =>
                rcases ih rg true dv res
                    (by simpa [parse_nutype_attributes, hf] using h) with ⟨h1, h2⟩
                exact ⟨by rw [h1]; simp [lastSanitizeGroup],
                  by rw [h2]; simp [lastValidateGroup]⟩
            | false => simp [parse_nutype_attributes, hf] at h
        | unknownItem name => simp [parse_nutype_attributes] at h

/-- Witness for C10: two `sanitize(...)` groups in a row parse without an
error and leave exactly the second group's contents. -/
theorem c10_witness :
    ParseableAttributes.parse (S := Nat) (V := Nat) ⟨false, false, false⟩
        [AttrItem.sanitizeGroup [1], AttrItem.sanitizeGroup [2, 3]] .init =
      .ok { ParseableAttributes.init (S := Nat) (V := Nat) with sanitizers := [2, 3] } ∧
    ([2, 3] : List Nat) =
      (lastSanitizeGroup [AttrItem.sanitizeGroup (S := Nat) (V := Nat) [1],
        AttrItem.sanitizeGroup [2, 3]]).getD [] := by
  constructor
  · exact (c10_last_group_wins ⟨false, false, false⟩).2.2.1 [1] [2, 3]
  · exact ((c10_last_group_wins (S := Nat) (V := Nat) ⟨false, false, false⟩).1
      [AttrItem.sanitizeGroup [1], AttrItem.sanitizeGroup [2, 3]] .init
      { ParseableAttributes.init (S := Nat) (V := Nat) with sanitizers := [2, 3] } rfl).1

end Nutype
